import Mathlib

/-!
Shallow embedding of the AHT10 sensor driver
(STM32F030-CMSIS-AHT10-lib.c): bus-operation traces for
`AHT10_readSensorData`, the raw-to-physical conversion of
`AHT10_getTempHumid100`, and the fixed-point formatter `i100toa`.
Machine arithmetic is modelled on `Nat`/`Int` with explicit wrap-around
(modulo `2^32` for `uint32_t` values, modulo `2^16` for `int16_t` stores).
-/

/-- Store of a nonnegative machine value into a C `int16_t`
(wrap modulo `2^16` into the signed range). -/
def toInt16 (n : Nat) : Int :=
  (((n % 65536 + 32768) % 65536 : Nat) : Int) - 32768

/-- Conversion of a (possibly negative) C `int` value to `int16_t`
(wrap modulo `2^16`, GCC/ARM behaviour). -/
def int16ofInt (n : Int) : Int :=
  (n + 32768) % 65536 - 32768

/-- The 6 bytes of a raw AHT10 measurement (`uint8_t ahtData[6]`). -/
structure Raw where
  b0 : Nat
  b1 : Nat
  b2 : Nat
  b3 : Nat
  b4 : Nat
  b5 : Nat
deriving DecidableEq

/-- All six bytes are in the `uint8_t` range. -/
def Raw.valid (r : Raw) : Prop :=
  r.b0 < 256 ∧ r.b1 < 256 ∧ r.b2 < 256 ∧ r.b3 < 256 ∧ r.b4 < 256 ∧ r.b5 < 256

instance (r : Raw) : Decidable r.valid := by
  unfold Raw.valid; infer_instance

/-- Extraction `humidData = ( ahtData[1]<<16 | ahtData[2]<<8 | ahtData[3] ) >> 4`. -/
def humidDataOf (r : Raw) : Nat :=
  ((r.b1 <<< 16) ||| (r.b2 <<< 8) ||| r.b3) >>> 4

/-- Extraction `tempData = ( ahtData[3] & 0x0F ) <<16 | ahtData[4]<<8 | ahtData[5]`. -/
def tempDataOf (r : Raw) : Nat :=
  ((r.b3 &&& 0x0F) <<< 16) ||| (r.b4 <<< 8) ||| r.b5

/-- The 40-bit packed data field carried in bytes 1 to 5. -/
def field40 (r : Raw) : Nat :=
  r.b1 * 2 ^ 32 + r.b2 * 2 ^ 24 + r.b3 * 2 ^ 16 + r.b4 * 2 ^ 8 + r.b5

/-- Computation `*temp100 = (tempData*625) / 32768 - 5000;` with
`tempData : uint32_t`: the product wraps modulo `2^32`, the subtraction is
unsigned (wraps modulo `2^32`), and the store into `int16_t` wraps
modulo `2^16`. -/
def temp100fromRaw (t : Nat) : Int :=
  toInt16 ((t * 625 % 4294967296 / 32768 + 4294967296 - 5000) % 4294967296)

/-- Computation `*humid100 = humidData/10486;` (unsigned division, then the
store into `int16_t`). -/
def humid100fromRaw (h : Nat) : Int :=
  toInt16 (h / 10486)

/-- One observable transport or timing operation. -/
inductive BusOp where
  | setAddress (a : Nat)
  | setNBytes (n : Nat)
  | setReadMode
  | setWriteMode
  | start
  | stop
  | write (b : Nat)
  | read
  | delayUs (n : Nat)
deriving DecidableEq

/-- Bus-facing state: the bytes the bus yields on successive reads, the
number of reads performed so far, and the trace of operations performed. -/
structure BusState where
  env : Nat → Nat
  reads : Nat
  trace : List BusOp

def I2C_setAddress (s : BusState) (a : Nat) : BusState :=
  { s with trace := s.trace ++ [BusOp.setAddress a] }

def I2C_setNBytes (s : BusState) (n : Nat) : BusState :=
  { s with trace := s.trace ++ [BusOp.setNBytes n] }

def I2C_setReadMode (s : BusState) : BusState :=
  { s with trace := s.trace ++ [BusOp.setReadMode] }

def I2C_setWriteMode (s : BusState) : BusState :=
  { s with trace := s.trace ++ [BusOp.setWriteMode] }

def I2C_start (s : BusState) : BusState :=
  { s with trace := s.trace ++ [BusOp.start] }

def I2C_stop (s : BusState) : BusState :=
  { s with trace := s.trace ++ [BusOp.stop] }

def I2C_write (s : BusState) (b : Nat) : BusState :=
  { s with trace := s.trace ++ [BusOp.write b] }

def I2C_read (s : BusState) : Nat × BusState :=
  (s.env s.reads, { s with reads := s.reads + 1, trace := s.trace ++ [BusOp.read] })

def delay_us (s : BusState) (n : Nat) : BusState :=
  { s with trace := s.trace ++ [BusOp.delayUs n] }

/-- Embedding of `AHT10_readSensorData`: trigger command write transaction,
fixed 75 ms wait, 6-byte read transaction, restore write mode, trailing
420 microsecond delay. -/
def AHT10_readSensorData (s : BusState) : Raw × BusState :=
  let s := I2C_setAddress s 0x38
  let s := I2C_setNBytes s 3
  let s := I2C_start s
  let s := I2C_write s 0xAC
  let s := I2C_write s 0x33
  let s := I2C_write s 0x00
  let s := I2C_stop s
  let s := delay_us s 75000
  let s := I2C_setNBytes s 6
  let s := I2C_setReadMode s
  let s := I2C_start s
  let (d0, s) := I2C_read s
  let (d1, s) := I2C_read s
  let (d2, s) := I2C_read s
  let (d3, s) := I2C_read s
  let (d4, s) := I2C_read s
  let (d5, s) := I2C_read s
  let s := I2C_stop s
  let s := I2C_setWriteMode s
  let s := delay_us s 420
  (⟨d0, d1, d2, d3, d4, d5⟩, s)

/-- Embedding of `AHT10_getTempHumid100`: reads the sensor, separates the
two 20-bit fields, scales them, and returns `(temp100, humid100, status)`
together with the final bus state. -/
def AHT10_getTempHumid100 (s : BusState) : (Int × Int × Nat) × BusState :=
  let (ahtData, s1) := AHT10_readSensorData s
  let humidData := humidDataOf ahtData
  let tempData := tempDataOf ahtData
  ((temp100fromRaw tempData, humid100fromRaw humidData, ahtData.b0), s1)

/-- ASCII digit character for a value below 10, as produced by `itoa`. -/
def digitChar (n : Nat) : Char := Char.ofNat (48 + n)

/-- Decimal digit list of a natural number, fuel-indexed so that it
reduces by kernel computation; the fuel is always taken large enough. -/
def natToDigitsAux : Nat → Nat → List Char
  | 0, _ => []
  | fuel + 1, n =>
    if n < 10 then [digitChar n]
    else natToDigitsAux fuel (n / 10) ++ [digitChar (n % 10)]

/-- Decimal digit list of a natural number. -/
def natToDigits (n : Nat) : List Char := natToDigitsAux (n + 1) n

/-- Decimal string of a natural number. -/
def natToStr (n : Nat) : String := String.mk (natToDigits n)

/-- Behaviour of `itoa(v, buf, 10)` as a string-producing function. -/
def itoaStr (v : Int) : String :=
  if v < 0 then "-" ++ natToStr v.natAbs else natToStr v.natAbs

/-- Embedding of `i100toa`: `x = abs(realV)` stored into `int16_t`,
whole part `w`, fraction `f`, decimal digit `d`, remainder `r` (all with
C truncating division), half-up rounding with carry, then the string is
assembled from `itoa` pieces. -/
def i100toa (realV : Int) : String :=
  let x := int16ofInt ((realV.natAbs : Nat) : Int)
  let w := x.tdiv 100
  let f := x - w * 100
  let d := f.tdiv 10
  let r := f - d * 10
  let wd := if 5 ≤ r then (if 10 ≤ d + 1 then (w + 1, (0 : Int)) else (w, d + 1)) else (w, d)
  (if realV < 0 then "-" else "") ++ itoaStr wd.1 ++ "." ++ itoaStr wd.2

/-- The output format the specification describes for the formatter: the
sign of the input, then the half-up rounded magnitude in tenths printed as
whole part, a decimal point, and one digit. -/
def claimFormat (v : Int) : String :=
  (if v < 0 then "-" else "") ++ natToStr ((v.natAbs + 5) / 10 / 10) ++ "." ++
    natToStr ((v.natAbs + 5) / 10 % 10)

/-- Numeric value of an ASCII digit character. -/
def digitVal (c : Char) : Nat := c.toNat - 48

/-- Greedy decimal scanner: consumes leading digit characters into an
accumulator and returns the value together with the unconsumed remainder. -/
def takeDigits : List Char → Nat → Nat × List Char
  | [], acc => (acc, [])
  | c :: cs, acc =>
    if c.isDigit then takeDigits cs (acc * 10 + digitVal c) else (acc, c :: cs)

/-- Parse an unsigned decimal with exactly one fractional digit, returning
its value in tenths. -/
def parseUnsignedTenths (l : List Char) : Option Nat :=
  match takeDigits l 0 with
  | (w, rest) =>
    match rest with
    | [p, d] => if p = '.' ∧ d.isDigit then some (w * 10 + digitVal d) else none
    | _ => none

/-- Parse a signed decimal with exactly one fractional digit, returning its
value in tenths. -/
def parseTenths (s : String) : Option Int :=
  match s.data with
  | [] => none
  | c :: cs =>
    if c = '-' then (parseUnsignedTenths cs).map fun n : Nat => -(n : Int)
    else (parseUnsignedTenths (c :: cs)).map fun n : Nat => (n : Int)

/-- Rounding to the nearest multiple of 10 with ties away from zero. -/
def roundTensAway (v : Int) : Int :=
  if v < 0 then -(10 * ((-v + 5) / 10)) else 10 * ((v + 5) / 10)

/-- A raw measurement assembled from the bytes the bus yields starting at
read position `k`. -/
def rawOf (env : Nat → Nat) (k : Nat) : Raw :=
  ⟨env k, env (k + 1), env (k + 2), env (k + 3), env (k + 4), env (k + 5)⟩

/-- The exact operation sequence one call to `AHT10_readSensorData`
performs. -/
def AHT10_commandTrace : List BusOp :=
  [BusOp.setAddress 0x38, BusOp.setNBytes 3, BusOp.start,
   BusOp.write 0xAC, BusOp.write 0x33, BusOp.write 0x00, BusOp.stop,
   BusOp.delayUs 75000, BusOp.setNBytes 6, BusOp.setReadMode, BusOp.start,
   BusOp.read, BusOp.read, BusOp.read, BusOp.read, BusOp.read, BusOp.read,
   BusOp.stop, BusOp.setWriteMode, BusOp.delayUs 420]

lemma readSensorData_eval (env : Nat → Nat) (k : Nat) (tr : List BusOp) :
    AHT10_readSensorData ⟨env, k, tr⟩ =
      (rawOf env k, ⟨env, k + 6, tr ++ AHT10_commandTrace⟩) := by
  simp only [AHT10_readSensorData, I2C_setAddress, I2C_setNBytes, I2C_start, I2C_write,
    I2C_stop, delay_us, I2C_setReadMode, I2C_setWriteMode, I2C_read, rawOf,
    AHT10_commandTrace, List.append_assoc, List.cons_append, List.singleton_append,
    List.nil_append]

lemma getTempHumid100_eval (env : Nat → Nat) (k : Nat) (tr : List BusOp) :
    AHT10_getTempHumid100 ⟨env, k, tr⟩ =
      ((temp100fromRaw (tempDataOf (rawOf env k)),
        humid100fromRaw (humidDataOf (rawOf env k)), env k),
       ⟨env, k + 6, tr ++ AHT10_commandTrace⟩) := by
  simp only [AHT10_getTempHumid100, readSensorData_eval, rawOf]

lemma lor_mul_pow_add {b : Nat} (a k : Nat) (hb : b < 2 ^ k) :
    (a * 2 ^ k) ||| b = a * 2 ^ k + b := by
  rw [Nat.mul_comm a (2 ^ k)]
  exact (Nat.mul_add_lt_is_or hb a).symm

/-- The two 20-bit extractions split the 40-bit field of a valid raw
measurement into its top and bottom halves. -/
lemma extract_spec (r : Raw) (hv : r.valid) :
    humidDataOf r = field40 r / 2 ^ 20 ∧ tempDataOf r = field40 r % 2 ^ 20 := by
  obtain ⟨h0, h1, h2, h3, h4, h5⟩ := hv
  have hand : r.b3 &&& 0x0F = r.b3 % 16 := by
    have := Nat.and_pow_two_sub_one_eq_mod r.b3 4
    norm_num at this
    exact this
  unfold humidDataOf tempDataOf field40
  rw [hand]
  simp only [Nat.shiftLeft_eq, Nat.shiftRight_eq_div_pow]
  rw [lor_mul_pow_add r.b1 16 (show r.b2 * 2 ^ 8 < 2 ^ 16 by omega)]
  rw [show r.b1 * 2 ^ 16 + r.b2 * 2 ^ 8 = (r.b1 * 2 ^ 8 + r.b2) * 2 ^ 8 by ring]
  rw [lor_mul_pow_add (r.b1 * 2 ^ 8 + r.b2) 8 (show r.b3 < 2 ^ 8 by omega)]
  rw [lor_mul_pow_add (r.b3 % 16) 16 (show r.b4 * 2 ^ 8 < 2 ^ 16 by omega)]
  rw [show r.b3 % 16 * 2 ^ 16 + r.b4 * 2 ^ 8 = (r.b3 % 16 * 2 ^ 8 + r.b4) * 2 ^ 8 by ring]
  rw [lor_mul_pow_add (r.b3 % 16 * 2 ^ 8 + r.b4) 8 (show r.b5 < 2 ^ 8 by omega)]
  constructor <;> omega

/-- Bounds on the extracted fields of a valid raw measurement. -/
lemma extract_lt (r : Raw) (hv : r.valid) :
    humidDataOf r < 2 ^ 20 ∧ tempDataOf r < 2 ^ 20 := by
  obtain ⟨hh, ht⟩ := extract_spec r hv
  obtain ⟨h0, h1, h2, h3, h4, h5⟩ := hv
  have hf : field40 r < 2 ^ 40 := by unfold field40; omega
  constructor
  · rw [hh]; omega
  · rw [ht]; omega

lemma toInt16_low (n : Nat) (h : n % 65536 < 32768) :
    toInt16 n = ((n % 65536 : Nat) : Int) := by
  unfold toInt16; omega

lemma toInt16_high (n : Nat) (h : 32768 ≤ n % 65536) :
    toInt16 n = ((n % 65536 : Nat) : Int) - 65536 := by
  unfold toInt16; omega

/-- For in-range raw values, the machine computation of `temp100` (with its
unsigned wrap-around and int16 store) agrees with exact integer
arithmetic. -/
lemma temp100fromRaw_eq (t : Nat) (ht : t < 2 ^ 20) :
    temp100fromRaw t = ((t * 625 / 32768 : Nat) : Int) - 5000 := by
  unfold temp100fromRaw
  rw [show t * 625 % 4294967296 = t * 625 by omega]
  have hq : t * 625 / 32768 ≤ 19999 := by omega
  generalize t * 625 / 32768 = q at hq ⊢
  by_cases h5 : 5000 ≤ q
  · rw [show (q + 4294967296 - 5000) % 4294967296 = q - 5000 by omega]
    unfold toInt16
    omega
  · rw [show (q + 4294967296 - 5000) % 4294967296 = q + 4294962296 by omega]
    unfold toInt16
    omega

/-- For in-range raw values, the machine computation of `humid100` agrees
with exact integer arithmetic. -/
lemma humid100fromRaw_eq (h : Nat) (hh : h < 2 ^ 20) :
    humid100fromRaw h = ((h / 10486 : Nat) : Int) := by
  unfold humid100fromRaw
  have hq : h / 10486 ≤ 100 := by omega
  generalize h / 10486 = q at hq ⊢
  unfold toInt16
  omega

/-- C1: for every 20-bit raw temperature field value, the code's
`(t*625)/32768 - 5000` computation (with all machine wrap-around modelled)
equals the direct formula `(t*20000)/2^20 - 5000`, and the intermediate
product `t*625` does not overflow 32-bit arithmetic. -/
theorem c1_temp_scaling_exact (t : Nat) (ht : t < 2 ^ 20) :
    temp100fromRaw t = ((t * 20000 / 2 ^ 20 : Nat) : Int) - 5000 ∧
      t * 625 < 2 ^ 32 := by
  rw [temp100fromRaw_eq t ht]
  constructor <;> omega

/-- Witness for C1 at the concrete raw value 0xA6666. -/
theorem c1_temp_scaling_exact_witness :
    (0xA6666 : Nat) < 2 ^ 20 ∧
      (temp100fromRaw 0xA6666 = ((0xA6666 * 20000 / 2 ^ 20 : Nat) : Int) - 5000 ∧
        0xA6666 * 625 < 2 ^ 32) :=
  ⟨by decide, c1_temp_scaling_exact 0xA6666 (by decide)⟩

/-- C2 counterexample: at the maximal 20-bit humidity field value the code
computes 99 while the formula `(h/2^20)*10000` named by the claim gives
9999; the gap is 9900, far beyond any quantization tolerance of the
divisor approximation. -/
theorem c2_humid_tolerance_counterexample :
    humid100fromRaw 1048575 = 99 ∧ (1048575 * 10000 / 2 ^ 20 : Nat) = 9999 ∧
      ¬ (((1048575 * 10000 / 2 ^ 20 : Nat) : Int) - humid100fromRaw 1048575 ≤ 1) := by
  refine ⟨by decide, by decide, ?_⟩
  decide

/-- C2 amended: for every 20-bit raw humidity field value, `h/10486` lies
within one unit below the truncated value of `(h/2^20)*100`, the scale the
code actually produces (65% is returned as 65). -/
theorem c2_humid_quantization (h : Nat) (hh : h < 2 ^ 20) :
    humid100fromRaw h ≤ ((h * 100 / 2 ^ 20 : Nat) : Int) ∧
      ((h * 100 / 2 ^ 20 : Nat) : Int) ≤ humid100fromRaw h + 1 := by
  rw [humid100fromRaw_eq h hh]
  constructor <;> omega

/-- Witness for C2's amended claim at a concrete humidity field value. -/
theorem c2_humid_quantization_witness :
    (820000 : Nat) < 2 ^ 20 ∧
      (humid100fromRaw 820000 ≤ ((820000 * 100 / 2 ^ 20 : Nat) : Int) ∧
        ((820000 * 100 / 2 ^ 20 : Nat) : Int) ≤ humid100fromRaw 820000 + 1) :=
  ⟨by decide, c2_humid_quantization 820000 (by decide)⟩

/-- The example raw measurement of the specification. -/
def exRaw : Raw := ⟨0x19, 0x19, 0x99, 0x9A, 0x66, 0x66⟩

/-- The bus environment yielding the example raw measurement. -/
def exEnv : Nat → Nat := fun i => [0x19, 0x19, 0x99, 0x9A, 0x66, 0x66].getD i 0

/-- C4: the extractions take the top and bottom 20 bits of the 40-bit data
field, splitting byte 3 into a high nibble for humidity and a low nibble
for temperature; on the example measurement they give 0x19999 and 0xA6666
and the returned status is 0x19. -/
theorem c4_field_extraction :
    (∀ r : Raw, r.valid →
        humidDataOf r = field40 r / 2 ^ 20 ∧ tempDataOf r = field40 r % 2 ^ 20) ∧
      humidDataOf exRaw = 0x19999 ∧ tempDataOf exRaw = 0xA6666 ∧
      (AHT10_getTempHumid100 ⟨exEnv, 0, []⟩).1.2.2 = 0x19 := by
  refine ⟨extract_spec, by decide, by decide, ?_⟩
  rw [getTempHumid100_eval]
  rfl

/-- Witness for C4's universally quantified part at the example
measurement. -/
theorem c4_field_extraction_witness :
    humidDataOf exRaw = field40 exRaw / 2 ^ 20 ∧
      tempDataOf exRaw = field40 exRaw % 2 ^ 20 :=
  c4_field_extraction.1 exRaw (by decide)

/-- C9: on every valid raw measurement the stored results stay in range,
`temp100` in `[-5000, 14999]` and `humid100` in `[0, 99]` (99 even at the
maximal field value), the intermediate product is at most 655359375 and so
fits 32-bit arithmetic, and the int16 store is exact. -/
theorem c9_output_ranges (r : Raw) (hv : r.valid) :
    (-5000 ≤ temp100fromRaw (tempDataOf r) ∧ temp100fromRaw (tempDataOf r) ≤ 14999) ∧
      (0 ≤ humid100fromRaw (humidDataOf r) ∧ humid100fromRaw (humidDataOf r) ≤ 99) ∧
      tempDataOf r * 625 ≤ 655359375 ∧
      temp100fromRaw (tempDataOf r) =
        ((tempDataOf r * 625 / 32768 : Nat) : Int) - 5000 ∧
      humid100fromRaw 1048575 = 99 := by
  obtain ⟨hhum, htmp⟩ := extract_lt r hv
  refine ⟨?_, ?_, by omega, ?_, by decide⟩
  · rw [temp100fromRaw_eq _ htmp]
    constructor <;> omega
  · rw [humid100fromRaw_eq _ hhum]
    constructor <;> omega
  · rw [temp100fromRaw_eq _ htmp]

/-- Witness for C9 at the example measurement. -/
theorem c9_output_ranges_witness :
    (-5000 ≤ temp100fromRaw (tempDataOf exRaw) ∧
        temp100fromRaw (tempDataOf exRaw) ≤ 14999) ∧
      (0 ≤ humid100fromRaw (humidDataOf exRaw) ∧
        humid100fromRaw (humidDataOf exRaw) ≤ 99) ∧
      tempDataOf exRaw * 625 ≤ 655359375 ∧
      temp100fromRaw (tempDataOf exRaw) =
        ((tempDataOf exRaw * 625 / 32768 : Nat) : Int) - 5000 ∧
      humid100fromRaw 1048575 = 99 :=
  c9_output_ranges exRaw (by decide)

/-- C6: every call to `AHT10_readSensorData` performs exactly the fixed
sequence: set address 0x38 and 3-byte count, start, write 0xAC 0x33 0x00,
stop, a fixed 75000 microsecond delay, set 6-byte count, read mode, start,
six reads landing in data[0..5] in order, stop, restore write mode, and a
trailing 420 microsecond delay. -/
theorem c6_bus_sequence (s : BusState) :
    AHT10_readSensorData s =
      (rawOf s.env s.reads, ⟨s.env, s.reads + 6, s.trace ++ AHT10_commandTrace⟩) := by
  obtain ⟨env, k, tr⟩ := s
  exact readSensorData_eval env k tr

/-- C7: `AHT10_getTempHumid100` returns byte 0 of the raw measurement
unmodified as its status, and nothing else depends on that byte: two runs
whose bus environments agree on bytes 1..5 produce identical `temp100`,
identical `humid100`, and identical operation traces, whatever bytes 0
they deliver. -/
theorem c7_status_passthrough (env env' : Nat → Nat)
    (h1 : env 1 = env' 1) (h2 : env 2 = env' 2) (h3 : env 3 = env' 3)
    (h4 : env 4 = env' 4) (h5 : env 5 = env' 5) :
    ((AHT10_getTempHumid100 ⟨env, 0, []⟩).1.2.2 = env 0 ∧
      (AHT10_getTempHumid100 ⟨env', 0, []⟩).1.2.2 = env' 0) ∧
    (AHT10_getTempHumid100 ⟨env, 0, []⟩).1.1 =
      (AHT10_getTempHumid100 ⟨env', 0, []⟩).1.1 ∧
    (AHT10_getTempHumid100 ⟨env, 0, []⟩).1.2.1 =
      (AHT10_getTempHumid100 ⟨env', 0, []⟩).1.2.1 ∧
    (AHT10_getTempHumid100 ⟨env, 0, []⟩).2.trace =
      (AHT10_getTempHumid100 ⟨env', 0, []⟩).2.trace := by
  rw [getTempHumid100_eval, getTempHumid100_eval]
  refine ⟨⟨rfl, rfl⟩, ?_, ?_, rfl⟩
  · unfold tempDataOf rawOf
    simp only [h3, h4, h5]
  · unfold humidDataOf rawOf
    simp only [h1, h2, h3]

/-- A bus environment for the C7 witness. -/
def envA : Nat → Nat := fun i => 16 + i

/-- The same environment with only byte 0 changed (status 0x99). -/
def envB : Nat → Nat := fun i => if i = 0 then 0x99 else 16 + i

/-- Witness for C7 on two concrete environments differing only in byte 0. -/
theorem c7_status_passthrough_witness :
    ((AHT10_getTempHumid100 ⟨envA, 0, []⟩).1.2.2 = envA 0 ∧
      (AHT10_getTempHumid100 ⟨envB, 0, []⟩).1.2.2 = envB 0) ∧
    (AHT10_getTempHumid100 ⟨envA, 0, []⟩).1.1 =
      (AHT10_getTempHumid100 ⟨envB, 0, []⟩).1.1 ∧
    (AHT10_getTempHumid100 ⟨envA, 0, []⟩).1.2.1 =
      (AHT10_getTempHumid100 ⟨envB, 0, []⟩).1.2.1 ∧
    (AHT10_getTempHumid100 ⟨envA, 0, []⟩).2.trace =
      (AHT10_getTempHumid100 ⟨envB, 0, []⟩).2.trace :=
  c7_status_passthrough envA envB (by decide) (by decide) (by decide)
    (by decide) (by decide)

lemma natToDigitsAux_congr : ∀ (f1 n : Nat), n < f1 → ∀ f2, n < f2 →
    natToDigitsAux f1 n = natToDigitsAux f2 n := by
  intro f1
  induction f1 with
  | zero => intro n h; omega
  | succ f ih =>
    intro n hn f2 hf2
    cases f2 with
    | zero => omega
    | succ g =>
      simp only [natToDigitsAux]
      by_cases h10 : n < 10
      · rw [if_pos h10, if_pos h10]
      · rw [if_neg h10, if_neg h10]
        rw [ih (n / 10) (by omega) g (by omega)]

lemma natToDigits_def (n : Nat) :
    natToDigits n =
      if n < 10 then [digitChar n]
      else natToDigits (n / 10) ++ [digitChar (n % 10)] := by
  have step : natToDigitsAux (n + 1) n =
      if n < 10 then [digitChar n]
      else natToDigitsAux n (n / 10) ++ [digitChar (n % 10)] := rfl
  unfold natToDigits
  rw [step]
  by_cases h : n < 10
  · rw [if_pos h, if_pos h]
  · rw [if_neg h, if_neg h]
    rw [natToDigitsAux_congr n (n / 10) (by omega) (n / 10 + 1) (by omega)]

lemma natToDigits_len1 (n : Nat) (h : n < 10) : (natToDigits n).length = 1 := by
  rw [natToDigits_def, if_pos h]
  rfl

lemma natToDigits_len2 (n : Nat) (h : n < 100) : (natToDigits n).length ≤ 2 := by
  rw [natToDigits_def]
  by_cases h10 : n < 10
  · rw [if_pos h10]; simp
  · rw [if_neg h10, List.length_append, natToDigits_len1 (n / 10) (by omega)]
    simp

lemma natToDigits_len3 (n : Nat) (h : n < 1000) : (natToDigits n).length ≤ 3 := by
  rw [natToDigits_def]
  by_cases h10 : n < 10
  · rw [if_pos h10]; simp
  · rw [if_neg h10, List.length_append]
    have := natToDigits_len2 (n / 10) (by omega)
    simp
    omega

lemma digitChar_isDigit (n : Nat) (h : n < 10) : (digitChar n).isDigit = true := by
  interval_cases n <;> decide

lemma digitChar_ne_dash (n : Nat) (h : n < 10) : digitChar n ≠ '-' := by
  interval_cases n <;> decide

lemma digitVal_digitChar (n : Nat) (h : n < 10) : digitVal (digitChar n) = n := by
  interval_cases n <;> decide

lemma natToDigits_head (n : Nat) :
    ∃ k cs, k < 10 ∧ natToDigits n = digitChar k :: cs := by
  induction n using Nat.strong_induction_on with
  | _ n ih =>
    rw [natToDigits_def]
    by_cases h : n < 10
    · exact ⟨n, [], h, by rw [if_pos h]⟩
    · obtain ⟨k, cs, hk, heq⟩ := ih (n / 10) (by omega)
      exact ⟨k, cs ++ [digitChar (n % 10)], hk, by rw [if_neg h, heq]; rfl⟩

lemma takeDigits_natToDigits (n : Nat) : ∀ (acc : Nat) (rest : List Char),
    takeDigits (natToDigits n ++ rest) acc =
      takeDigits rest (acc * 10 ^ (natToDigits n).length + n) := by
  induction n using Nat.strong_induction_on with
  | _ n ih =>
    intro acc rest
    by_cases h : n < 10
    · rw [natToDigits_def, if_pos h, List.singleton_append]
      simp only [takeDigits]
      rw [if_pos (digitChar_isDigit n h), digitVal_digitChar n h]
      norm_num
    · rw [natToDigits_def, if_neg h, List.append_assoc]
      rw [ih (n / 10) (by omega), List.singleton_append]
      simp only [takeDigits]
      rw [if_pos (digitChar_isDigit (n % 10) (by omega))]
      rw [digitVal_digitChar (n % 10) (by omega)]
      congr 1
      rw [List.length_append, List.length_singleton, pow_succ]
      have hsplit : (acc * 10 ^ (natToDigits (n / 10)).length + n / 10) * 10 + n % 10 =
          acc * (10 ^ (natToDigits (n / 10)).length * 10) + (n / 10 * 10 + n % 10) := by
        ring
      rw [hsplit]
      congr 1
      omega

lemma itoaStr_natCast (n : Nat) : itoaStr ((n : Nat) : Int) = natToStr n := by
  unfold itoaStr
  rw [if_neg (by omega)]
  simp

/-- The formatter agrees with the specified sign-magnitude half-up rounding
format on every int16 input except the lone value -32768. -/
lemma i100toa_eq_claimFormat (v : Int) (h1 : -32767 ≤ v) (h2 : v ≤ 32767) :
    i100toa v = claimFormat v := by
  simp only [i100toa, claimFormat]
  rw [show int16ofInt ((v.natAbs : Nat) : Int) = ((v.natAbs : Nat) : Int) by
    unfold int16ofInt; omega]
  rw [show ((v.natAbs : Nat) : Int).tdiv 100 = ((v.natAbs / 100 : Nat) : Int) from rfl]
  rw [show ((v.natAbs : Nat) : Int) - ((v.natAbs / 100 : Nat) : Int) * 100 =
      ((v.natAbs % 100 : Nat) : Int) by push_cast; omega]
  rw [show ((v.natAbs % 100 : Nat) : Int).tdiv 10 =
      ((v.natAbs % 100 / 10 : Nat) : Int) from rfl]
  rw [show ((v.natAbs % 100 : Nat) : Int) - ((v.natAbs % 100 / 10 : Nat) : Int) * 10 =
      ((v.natAbs % 100 % 10 : Nat) : Int) by push_cast; omega]
  rw [show ((v.natAbs / 100 : Nat) : Int) + 1 = ((v.natAbs / 100 + 1 : Nat) : Int) by
    push_cast; ring]
  rw [show ((v.natAbs % 100 / 10 : Nat) : Int) + 1 =
      ((v.natAbs % 100 / 10 + 1 : Nat) : Int) by push_cast; ring]
  rw [show (0 : Int) = ((0 : Nat) : Int) from rfl]
  simp only [apply_ite (Prod.fst (α := Int) (β := Int)),
    apply_ite (Prod.snd (α := Int) (β := Int)), apply_ite itoaStr, itoaStr_natCast]
  split_ifs with hneg h5 h10
  · rw [show (v.natAbs + 5) / 10 / 10 = v.natAbs / 100 + 1 by omega,
        show (v.natAbs + 5) / 10 % 10 = 0 by omega]
  · rw [show (v.natAbs + 5) / 10 / 10 = v.natAbs / 100 by omega,
        show (v.natAbs + 5) / 10 % 10 = v.natAbs % 100 / 10 + 1 by omega]
  · rw [show (v.natAbs + 5) / 10 / 10 = v.natAbs / 100 by omega,
        show (v.natAbs + 5) / 10 % 10 = v.natAbs % 100 / 10 by omega]
  · rw [show (v.natAbs + 5) / 10 / 10 = v.natAbs / 100 + 1 by omega,
        show (v.natAbs + 5) / 10 % 10 = 0 by omega]
  · rw [show (v.natAbs + 5) / 10 / 10 = v.natAbs / 100 by omega,
        show (v.natAbs + 5) / 10 % 10 = v.natAbs % 100 / 10 + 1 by omega]
  · rw [show (v.natAbs + 5) / 10 / 10 = v.natAbs / 100 by omega,
        show (v.natAbs + 5) / 10 % 10 = v.natAbs % 100 / 10 by omega]

lemma string_mk_data (l : List Char) : (String.mk l).data = l := rfl

lemma claimFormat_data (v : Int) :
    (claimFormat v).data =
      (if v < 0 then ['-'] else []) ++
        (natToDigits ((v.natAbs + 5) / 10 / 10) ++
          '.' :: natToDigits ((v.natAbs + 5) / 10 % 10)) := by
  have hdash : ("-" : String).data = ['-'] := rfl
  have hdot : ("." : String).data = ['.'] := rfl
  have hnil : ("" : String).data = ([] : List Char) := rfl
  unfold claimFormat natToStr
  by_cases hneg : v < 0
  · rw [if_pos hneg, if_pos hneg]
    simp [String.data_append, hdash, hdot, string_mk_data]
  · rw [if_neg hneg, if_neg hneg]
    simp [String.data_append, hnil, hdot, string_mk_data]

lemma parseUnsignedTenths_fmt (W D : Nat) (hD : D < 10) :
    parseUnsignedTenths (natToDigits W ++ ['.', digitChar D]) = some (W * 10 + D) := by
  unfold parseUnsignedTenths
  rw [takeDigits_natToDigits]
  simp only [takeDigits]
  rw [if_neg (by decide : ¬ (('.' : Char).isDigit = true))]
  dsimp only
  rw [if_pos ⟨rfl, digitChar_isDigit D hD⟩]
  rw [digitVal_digitChar D hD]
  simp

lemma parseTenths_claimFormat (v : Int) :
    parseTenths (claimFormat v) =
      some (if v < 0 then -(((v.natAbs + 5) / 10 : Nat) : Int)
            else (((v.natAbs + 5) / 10 : Nat) : Int)) := by
  have hD : (v.natAbs + 5) / 10 % 10 < 10 := by omega
  have hsingle : natToDigits ((v.natAbs + 5) / 10 % 10) =
      [digitChar ((v.natAbs + 5) / 10 % 10)] := by
    rw [natToDigits_def, if_pos hD]
  have hval : (v.natAbs + 5) / 10 / 10 * 10 + (v.natAbs + 5) / 10 % 10 =
      (v.natAbs + 5) / 10 := by omega
  unfold parseTenths
  rw [claimFormat_data, hsingle]
  by_cases hneg : v < 0
  · rw [if_pos hneg, if_pos hneg, List.singleton_append]
    dsimp only
    rw [if_pos rfl]
    rw [parseUnsignedTenths_fmt _ _ hD]
    simp only [Option.map_some']
    rw [hval]
  · rw [if_neg hneg, if_neg hneg, List.nil_append]
    obtain ⟨k, cs, hk, hcons⟩ := natToDigits_head ((v.natAbs + 5) / 10 / 10)
    rw [hcons, List.cons_append]
    dsimp only
    rw [if_neg (digitChar_ne_dash k hk)]
    rw [← List.cons_append, ← hcons]
    rw [parseUnsignedTenths_fmt _ _ hD]
    simp only [Option.map_some']
    rw [hval]

/-- C3 counterexample: at the int16 input -32768, `abs` overflows the
int16 store, `x` becomes -32768, and the truncating divisions propagate
negative intermediate values into `itoa`; the output is the malformed
string "--327.-6" rather than the sign-digits-dot-digit form (which would
be "-327.7") that the claim asserts for every int16 input. -/
theorem c3_format_counterexample :
    i100toa (-32768) = "--327.-6" ∧ claimFormat (-32768) = "-327.7" ∧
      i100toa (-32768) ≠ claimFormat (-32768) := by
  refine ⟨by decide, by decide, by decide⟩

/-- C3 amended: for every int16 input except -32768, the output is the
sign of the input followed by the decimal digits of the half-up rounded
magnitude (whole part, '.', one rounded digit with carry, as
`claimFormat` states), and the five literal examples hold. -/
theorem c3_format_rounding :
    (∀ v : Int, -32767 ≤ v → v ≤ 32767 → i100toa v = claimFormat v) ∧
      i100toa (-235) = "-2.4" ∧ i100toa 1996 = "20.0" ∧ i100toa 0 = "0.0" ∧
      i100toa 2753 = "27.5" ∧ i100toa 1236 = "12.4" :=
  ⟨fun v h1 h2 => i100toa_eq_claimFormat v h1 h2,
   by decide, by decide, by decide, by decide, by decide⟩

/-- Witness for C3's universally quantified part at a concrete input. -/
theorem c3_format_rounding_witness : i100toa 1234 = claimFormat 1234 :=
  c3_format_rounding.1 1234 (by decide) (by decide)

/-- C5: for every centi-value in [-9999, 9999], re-parsing the formatted
string as a signed one-decimal number and multiplying by 10 recovers the
input rounded to the nearest multiple of 10 with ties away from zero. -/
theorem c5_format_roundtrip (v : Int) (h1 : -9999 ≤ v) (h2 : v ≤ 9999) :
    ∃ t : Int, parseTenths (i100toa v) = some t ∧ t * 10 = roundTensAway v := by
  rw [i100toa_eq_claimFormat v (by omega) (by omega), parseTenths_claimFormat]
  refine ⟨_, rfl, ?_⟩
  unfold roundTensAway
  split_ifs with hneg <;> omega

/-- Witness for C5 at the concrete input -235. -/
theorem c5_format_roundtrip_witness :
    ∃ t : Int, parseTenths (i100toa (-235)) = some t ∧
      t * 10 = roundTensAway (-235) :=
  c5_format_roundtrip (-235) (by decide) (by decide)

/-- C8 counterexample: at -32768 the produced string has 8 characters, so
with a terminator it occupies 9 bytes, beyond the claimed 7-byte bound. -/
theorem c8_length_counterexample :
    (i100toa (-32768)).length = 8 ∧ ¬ ((i100toa (-32768)).length + 1 ≤ 7) := by
  refine ⟨by decide, by decide⟩

/-- C8 amended: for every int16 input except -32768, the output consists
of an optional sign, at most 3 whole-part digits, a decimal point and
exactly one digit: at most 6 characters, hence at most 7 bytes with the
terminator. -/
theorem c8_length_bound (v : Int) (h1 : -32767 ≤ v) (h2 : v ≤ 32767) :
    (i100toa v).length + 1 ≤ 7 ∧
      ∃ w d : Nat, w < 1000 ∧ d < 10 ∧
        i100toa v = (if v < 0 then "-" else "") ++ natToStr w ++ "." ++ natToStr d := by
  rw [i100toa_eq_claimFormat v h1 h2]
  have hWlt : (v.natAbs + 5) / 10 / 10 < 1000 := by omega
  have hDlt : (v.natAbs + 5) / 10 % 10 < 10 := by omega
  constructor
  · have hlen : (claimFormat v).length = (claimFormat v).data.length := rfl
    rw [hlen, claimFormat_data]
    have hW3 := natToDigits_len3 _ hWlt
    have hD1 := natToDigits_len1 _ hDlt
    simp only [List.length_append, List.length_cons]
    split_ifs <;> simp only [List.length_cons, List.length_nil] <;> omega
  · exact ⟨(v.natAbs + 5) / 10 / 10, (v.natAbs + 5) / 10 % 10, hWlt, hDlt, rfl⟩

/-- Witness for C8 at a concrete input. -/
theorem c8_length_bound_witness :
    (i100toa (-9999)).length + 1 ≤ 7 ∧
      ∃ w d : Nat, w < 1000 ∧ d < 10 ∧
        i100toa (-9999) =
          (if (-9999 : Int) < 0 then "-" else "") ++ natToStr w ++ "." ++ natToStr d :=
  c8_length_bound (-9999) (by decide) (by decide)

/-- C10: for inputs in [-44, -1] the sign comes from the input while the
rounded whole part is 0, so the output starts with "-0."; in particular
the input -4 formats as the signed zero string "-0.0". -/
theorem c10_negative_zero :
    (∀ v : Int, -44 ≤ v → v ≤ -1 →
        ∃ d : Nat, d < 10 ∧ i100toa v = "-0." ++ natToStr d) ∧
      i100toa (-4) = "-0.0" := by
  refine ⟨fun v h1 h2 => ⟨(v.natAbs + 5) / 10, by omega, ?_⟩, by decide⟩
  rw [i100toa_eq_claimFormat v (by omega) (by omega)]
  unfold claimFormat
  rw [if_pos (by omega : v < 0)]
  rw [show (v.natAbs + 5) / 10 / 10 = 0 by omega]
  rw [show (v.natAbs + 5) / 10 % 10 = (v.natAbs + 5) / 10 by omega]
  congr 1

/-- Witness for C10's universally quantified part at the input -4. -/
theorem c10_negative_zero_witness :
    ∃ d : Nat, d < 10 ∧ i100toa (-4) = "-0." ++ natToStr d :=
  c10_negative_zero.1 (-4) (by decide) (by decide)
